import Mathlib

/-!
Shallow embedding of the barcode-battler game core (BarcodeProcessor,
CreatureManager, DifficultyManager, AIOpponent, BattleEngine) and proofs
about it.  JavaScript numbers are modelled as exact integers (`Int`/`Nat`)
where the source only ever holds integers, and as exact rationals (`Rat`)
where the source holds fractional values; `Math.floor` becomes `Int.floor`,
the JS remainder operator `%` (sign of the dividend) becomes `Int.tmod`,
and `Math.random()` streams are made explicit (either the seeded LCG state
or an explicit list of draws).  Impure fragments (`Date.now`, DOM events,
localStorage persistence, `console` logging) are outside the model; where a
function consumes them (creature ids, timestamps) they are passed as
parameters or omitted from the records, which only affects fields no claim
mentions.
-/

namespace BarcodeBattler

/-- `GameUtils.clamp` from `src/sw.js`: `Math.min(Math.max(value, min), max)`. -/
def clamp (value lo hi : ℤ) : ℤ := min (max value lo) hi

/-! ## SeededRandomGenerator (`BarcodeProcessor.createSeededRandom`, src/js/main.js) -/

/-- Initial internal state of `createSeededRandom`:
`let current = seed % 2147483647; if (current <= 0) current += 2147483646;`.
JS `%` keeps the sign of the dividend, which is `Int.tmod`. -/
def lcgInit (seed : ℤ) : ℤ :=
  let current := seed.tmod 2147483647
  if current ≤ 0 then current + 2147483646 else current

/-- One update of the generator: `current = (current * 16807) % 2147483647`. -/
def lcgNext (current : ℤ) : ℤ := (current * 16807).tmod 2147483647

/-- The value returned after an update: `(current - 1) / 2147483646`. -/
def lcgOut (current : ℤ) : ℚ := ((current : ℚ) - 1) / 2147483646

/-- Internal state after `n` updates of a generator seeded with `seed`. -/
def lcgState (seed : ℤ) : ℕ → ℤ
  | 0 => lcgInit seed
  | n + 1 => lcgNext (lcgState seed n)

/-- The `n`-th value (0-based) returned by the generator: each call first
updates the state, then returns the derived rational. -/
def lcgValue (seed : ℤ) (n : ℕ) : ℚ := lcgOut (lcgState seed (n + 1))

/-! ## CreatureGenerator (`BarcodeProcessor`, src/js/main.js) -/

/-- The digit values of a barcode string (`parseInt(barcode[i])` on a digit
character is its numeric value). -/
def barcodeDigits (b : String) : List ℕ := b.data.map fun c => c.toNat - 48

/-- `BarcodeProcessor.validateBarcode`: length at least `MIN_BARCODE_LENGTH = 8`,
at most `MAX_BARCODE_LENGTH = 20`, and matching the regex `^\d+$`
(non-empty, ASCII digits only). -/
def validateBarcode (b : String) : Bool :=
  if b.length < 8 then false
  else if 20 < b.length then false
  else !b.data.isEmpty && b.data.all Char.isDigit

/-- `BarcodeProcessor.generateSeed`: `seed += digit * (i + 1) * 31` over the
0-based character index `i`. -/
def generateSeed (b : String) : ℤ :=
  (barcodeDigits b).enum.foldl (fun s p => s + (p.2 : ℤ) * ((p.1 : ℤ) + 1) * 31) 0

/-- `BarcodeProcessor.getStatFromDigits`: sum the digits at the in-range
positions, normalize by `positions.length * 9`, map linearly into `[lo, hi]`
with `Math.floor`. -/
def getStatFromDigits (digits : List ℕ) (positions : List ℕ) (lo hi : ℤ) : ℤ :=
  let sum : ℕ := positions.foldl
    (fun s pos => if pos < digits.length then s + digits.getD pos 0 else s) 0
  let maxSum : ℕ := positions.length * 9
  let normalized : ℚ := (sum : ℚ) / (maxSum : ℚ)
  lo + ⌊normalized * ((hi - lo : ℤ) : ℚ)⌋

/-- Creature stats record: `{hp, maxHp, attack, defense, speed}`. -/
structure Stats where
  hp : ℤ
  maxHp : ℤ
  attack : ℤ
  defense : ℤ
  speed : ℤ
deriving Repr, DecidableEq, Inhabited

/-- `BarcodeProcessor.calculateStats`: base values from digit positions
[0,1]/[2,3]/[4,5]/[6,7], then four draws of the seeded generator perturb them
(hp by `random()*20-10`, the others by `random()*10-5`), `Math.floor`, and a
final clamp into the configured ranges (hp 80–120, attack 30–70,
defense 25–65, speed 20–60).  `maxHp` is the same clamped expression as `hp`. -/
def calculateStats (b : String) : Stats :=
  let seed := generateSeed b
  let digits := barcodeDigits b
  let hpBase := getStatFromDigits digits [0, 1] 80 120
  let attackBase := getStatFromDigits digits [2, 3] 30 70
  let defenseBase := getStatFromDigits digits [4, 5] 25 65
  let speedBase := getStatFromDigits digits [6, 7] 20 60
  let hp := ⌊(hpBase : ℚ) + (lcgValue seed 0 * 20 - 10)⌋
  let attack := ⌊(attackBase : ℚ) + (lcgValue seed 1 * 10 - 5)⌋
  let defense := ⌊(defenseBase : ℚ) + (lcgValue seed 2 * 10 - 5)⌋
  let speed := ⌊(speedBase : ℚ) + (lcgValue seed 3 * 10 - 5)⌋
  { hp := clamp hp 80 120
    maxHp := clamp hp 80 120
    attack := clamp attack 30 70
    defense := clamp defense 25 65
    speed := clamp speed 20 60 }

/-- One call of the seeded generator as explicit state passing: update the
state, return the drawn rational together with the new state. -/
def rngNext (st : ℤ) : ℚ × ℤ :=
  let st' := lcgNext st
  (lcgOut st', st')

/-- The 80-entry syllable table of `BarcodeProcessor` (duplicates included,
exactly as listed in the source). -/
def syllables : List String :=
  ["ka", "ri", "mo", "na", "zu", "te", "lo", "xi", "ba", "do",
   "fe", "gu", "hi", "ja", "ko", "lu", "me", "no", "po", "qu",
   "ra", "si", "tu", "vo", "wa", "xe", "ya", "zi", "bo", "cu",
   "da", "el", "fi", "go", "hu", "iv", "jo", "ke", "li", "ma",
   "ar", "en", "or", "un", "al", "er", "in", "on", "at", "ed",
   "is", "it", "ou", "an", "he", "wa", "fo", "nd", "ng", "ha",
   "th", "re", "ve", "st", "gh", "nd", "le", "se", "nt", "ti",
   "ro", "ur", "li", "ch", "la", "ne", "mi", "el", "co", "de"]

/-- Name styles of the three `namePatterns`. -/
inductive NameStyle where
  | short
  | medium
  | long
deriving DecidableEq, Repr

/-- One entry of `BarcodeProcessor.namePatterns`. -/
structure NamePattern where
  minLength : ℕ
  maxLength : ℕ
  style : NameStyle
deriving Repr, DecidableEq

/-- `BarcodeProcessor.namePatterns`: short 2–3, medium 3–4, long 4–5. -/
def namePatterns : List NamePattern :=
  [⟨2, 3, .short⟩, ⟨3, 4, .medium⟩, ⟨4, 5, .long⟩]

/-- The do-while loop in `generateCreatureName` that picks one syllable:
draw an index, and for names of length ≤ 3 resample while the syllable was
already used, giving up after 10 attempts.  `attempts` counts the draws made
so far (the source increments before testing the loop condition). -/
def pickSyllableGo (nameLength : ℕ) (used : List String) :
    ℕ → ℤ → ℕ → String × ℤ
  | 0, st, _ =>
    let (_, st') := rngNext st
    ("", st')
  | fuel + 1, st, attempts =>
    let (r, st') := rngNext st
    let idx := (⌊r * (syllables.length : ℚ)⌋).toNat
    let syl := syllables.getD idx ""
    let attempts' := attempts + 1
    if nameLength ≤ 3 ∧ used.contains syl = true ∧ attempts' < 10 then
      pickSyllableGo nameLength used fuel st' attempts'
    else (syl, st')

/-- One execution of the do-while loop, from 0 attempts.  The recursion
above is structural on `fuel`; starting from `fuel = 10` and `attempts = 0`
the `attempts < 10` guard always fires before the fuel runs out, so the
fuel-0 branch is unreachable and the function coincides with the source's
loop. -/
def pickSyllable (nameLength : ℕ) (used : List String) (st : ℤ) : String × ℤ :=
  pickSyllableGo nameLength used 10 st 0

/-- The `for (let i = 0; i < nameLength; i++)` loop of `generateCreatureName`:
`k` counts the remaining iterations, `used` is the `usedSyllables` set and
`acc` the name built so far. -/
def buildNameSyllables (nameLength : ℕ) : ℕ → ℤ → List String → String → String × ℤ
  | 0, st, _, acc => (acc, st)
  | k + 1, st, used, acc =>
    let (syl, st') := pickSyllable nameLength used st
    buildNameSyllables nameLength k st' (used ++ [syl]) (acc ++ syl)

/-- The consonant table used by the `short` styling branch. -/
def consonants : List Char := "bcdfghjklmnpqrstvwxyz".data

/-- `BarcodeProcessor.applyNameStyling`: short names double a consonant with
probability 0.3, long names insert an apostrophe past position 2 with
probability 0.2 (when longer than 4 characters), medium names are unchanged.
Draws happen exactly when the source evaluates `random()`. -/
def applyNameStyling (name : String) (style : NameStyle) (st : ℤ) : String × ℤ :=
  match style with
  | .short =>
    let (r, st1) := rngNext st
    if r < 3 / 10 then
      let (r2, st2) := rngNext st1
      let pos := (⌊r2 * ((name.length : ℚ) - 1)⌋).toNat + 1
      let c := name.data.getD pos ' '
      if consonants.contains c then
        (⟨name.data.take pos ++ [c] ++ name.data.drop pos⟩, st2)
      else (name, st2)
    else (name, st1)
  | .medium => (name, st)
  | .long =>
    let (r, st1) := rngNext st
    if r < 1 / 5 && 4 < name.length then
      let (r2, st2) := rngNext st1
      let pos := (⌊r2 * ((name.length : ℚ) - 2)⌋).toNat + 2
      (⟨name.data.take pos ++ [Char.ofNat 39] ++ name.data.drop pos⟩, st2)
    else (name, st1)

/-- `name.charAt(0).toUpperCase() + name.slice(1)`. -/
def capitalize (name : String) : String :=
  match name.data with
  | [] => ""
  | c :: rest => ⟨c.toUpper :: rest⟩

/-- `BarcodeProcessor.generateCreatureName`: builds a fresh seeded generator
from the barcode, draws a pattern and a length, concatenates syllables, then
styles and capitalizes. -/
def generateCreatureName (b : String) : String :=
  let seed := generateSeed b
  let st0 := lcgInit seed
  let (r1, st1) := rngNext st0
  let patternIndex := (⌊r1 * (namePatterns.length : ℚ)⌋).toNat
  let pat := namePatterns.getD patternIndex ⟨2, 3, .short⟩
  let (r2, st2) := rngNext st1
  let nameLength :=
    pat.minLength + (⌊r2 * ((pat.maxLength : ℚ) - (pat.minLength : ℚ) + 1)⌋).toNat
  let (name, st3) := buildNameSyllables nameLength nameLength st2 [] ""
  let (styled, _) := applyNameStyling name pat.style st3
  capitalize styled

/-! ## Experience model (`GameUtils`, src/sw.js) -/

/-- `GameUtils.calculateExperienceToNext`:
`Math.floor(100 * Math.pow(1.5, level - 1))`, modelled exactly for the
levels the game reaches (`level ≥ 1`, enforced by creature validation). -/
def calculateExperienceToNext (level : ℤ) : ℤ :=
  ⌊(100 : ℚ) * (3 / 2 : ℚ) ^ (level - 1).toNat⌋

/-- `GameUtils.calculateStatAtLevel`:
`baseStat + (level - 1) * STAT_GROWTH_PER_LEVEL` with growth 5. -/
def calculateStatAtLevel (baseStat level : ℤ) : ℤ :=
  baseStat + (level - 1) * 5

/-! ## Creature record and `DataValidation` (src/sw.js) -/

/-- Creature record.  `id` is produced by the impure `GameUtils.generateId`
and is therefore a parameter of generation; `discoveryDate` (a timestamp no
validated field or claim depends on) is omitted.  `isOpponent` and
`difficultyBonusCrit` model the fields the difficulty manager attaches to
generated opponents (absent, i.e. `false`/`none`, on ordinary creatures). -/
structure Creature where
  id : String
  name : String
  barcode : String
  stats : Stats
  level : ℤ
  experience : ℤ
  experienceToNext : ℤ
  battlesWon : ℤ
  battlesLost : ℤ
  isOpponent : Bool := false
  difficultyBonusCrit : Option ℚ := none
deriving Repr, DecidableEq, Inhabited

/-- `DataValidation.isValidBarcode`: a non-empty all-digit string of length
at least 8 (no upper bound here, unlike `validateBarcode`). -/
def isValidBarcodeData (b : String) : Bool :=
  if b.length < 8 then false
  else !b.data.isEmpty && b.data.all Char.isDigit

/-- `DataValidation.isValidCreatureStats`: all five stats non-negative and
`hp ≤ maxHp`. -/
def isValidCreatureStats (s : Stats) : Bool :=
  0 ≤ s.hp && 0 ≤ s.maxHp && 0 ≤ s.attack && 0 ≤ s.defense && 0 ≤ s.speed &&
    s.hp ≤ s.maxHp

/-- `DataValidation.isValidCreature`: required fields present (structural in
this embedding), valid barcode, `level ≥ 1`, `experience ≥ 0`, valid stats. -/
def isValidCreature (c : Creature) : Bool :=
  isValidBarcodeData c.barcode && 1 ≤ c.level && 0 ≤ c.experience &&
    isValidCreatureStats c.stats

/-- `BarcodeProcessor.generateCreature`: validate the barcode, generate stats
and name (each from its own fresh seeded generator), assemble a level-1
creature, and reject it if structural validation fails. -/
def generateCreature (id : String) (b : String) : Option Creature :=
  if !validateBarcode b then none
  else
    let stats := calculateStats b
    let name := generateCreatureName b
    let c : Creature :=
      { id := id, name := name, barcode := b, stats := stats, level := 1,
        experience := 0, experienceToNext := calculateExperienceToNext 1,
        battlesWon := 0, battlesLost := 0 }
    if !isValidCreature c then none else some c

/-! ## CreatureManager leveling (src/js/creature-manager.js) -/

/-- `CreatureManager.updateStatsForLevel`: re-derive the level-1 base stats
from the barcode, scale them to the current level (`+5` per level), and set
current HP to the new maximum scaled by the previous hp/maxHp share, floored,
with a minimum of 1. -/
def updateStatsForLevel (c : Creature) : Creature :=
  let base := calculateStats c.barcode
  let newMaxHp := calculateStatAtLevel base.maxHp c.level
  let newAttack := calculateStatAtLevel base.attack c.level
  let newDefense := calculateStatAtLevel base.defense c.level
  let newSpeed := calculateStatAtLevel base.speed c.level
  let hpShare : ℚ := (c.stats.hp : ℚ) / (c.stats.maxHp : ℚ)
  { c with stats :=
    { maxHp := newMaxHp, attack := newAttack, defense := newDefense,
      speed := newSpeed, hp := max 1 ⌊(newMaxHp : ℚ) * hpShare⌋ } }

/-- The body of the `while (creature.experience >= creature.experienceToNext)`
loop of `CreatureManager.checkLevelUp`: consume the threshold, bump the
level, recompute stats for the new level, recompute the threshold. -/
def levelUpOnce (c : Creature) : Creature :=
  let c1 := updateStatsForLevel
    { c with experience := c.experience - c.experienceToNext,
             level := c.level + 1 }
  { c1 with experienceToNext := calculateExperienceToNext c1.level }

/-- The loop itself: stop when the experience drops below the threshold,
otherwise run one `levelUpOnce` iteration and break once `levelsGained`
exceeds 50 (the safety check fires after the 51st level-up).  The recursion
is structural on `fuel`; starting from `fuel = 51` and `levelsGained = 0`
the 50-cap always breaks the loop before the fuel runs out, so the fuel-0
branch is unreachable and the function coincides with the source's
while loop. -/
def checkLevelUpGo : ℕ → Creature → ℕ → Creature × ℕ
  | 0, c, levelsGained => (c, levelsGained)
  | fuel + 1, c, levelsGained =>
    if c.experience < c.experienceToNext then (c, levelsGained)
    else
      let c2 := levelUpOnce c
      let g := levelsGained + 1
      if 50 < g then (c2, g)
      else checkLevelUpGo fuel c2 g

/-- `CreatureManager.checkLevelUp`, returning the updated creature together
with `levelsGained`. -/
def checkLevelUp (c : Creature) : Creature × ℕ := checkLevelUpGo 51 c 0

/-- `CreatureManager.awardExperience` on the creature itself (the id lookup
in the collection and the storage write are modelled away): negative amounts
are rejected with a failure result (`none`), otherwise the experience is
added, level-ups are applied, and a success result is returned regardless of
how many level-ups occurred. -/
def awardExperience (c : Creature) (amount : ℤ) : Option (Creature × ℕ) :=
  if amount < 0 then none
  else some (checkLevelUp { c with experience := c.experience + amount })

/-! ## DifficultyManager (src/js/difficulty-manager.js) -/

/-- The three difficulty tiers. -/
inductive Difficulty where
  | easy
  | medium
  | hard
deriving DecidableEq, Repr, Inhabited

/-- One per-difficulty entry of `battleStats`. -/
structure WinLoss where
  wins : ℕ
  losses : ℕ
deriving Repr, DecidableEq, Inhabited

/-- Progression state of `DifficultyManager`: current difficulty, the
unlocked list, and per-difficulty win/loss counters. -/
structure DifficultyProgress where
  currentDifficulty : Difficulty
  unlockedDifficulties : List Difficulty
  statsEasy : WinLoss
  statsMedium : WinLoss
  statsHard : WinLoss
deriving Repr, DecidableEq, Inhabited

/-- Constructor state: easy selected, only easy unlocked, zeroed counters
(the source initializes `battleStats` lazily to the same zeros). -/
def initialProgress : DifficultyProgress :=
  { currentDifficulty := .easy, unlockedDifficulties := [.easy],
    statsEasy := ⟨0, 0⟩, statsMedium := ⟨0, 0⟩, statsHard := ⟨0, 0⟩ }

/-- `DifficultyManager.isDifficultyUnlocked`: membership in the unlocked
list. -/
def isDifficultyUnlocked (s : DifficultyProgress) (d : Difficulty) : Bool :=
  s.unlockedDifficulties.contains d

/-- `DifficultyManager.getTotalWins`: wins summed across all difficulties. -/
def getTotalWins (s : DifficultyProgress) : ℕ :=
  s.statsEasy.wins + s.statsMedium.wins + s.statsHard.wins

/-- `DifficultyManager.unlockDifficulty`: append to the unlocked list unless
already present (the difficulty enum is always valid here). -/
def unlockDifficulty (s : DifficultyProgress) (d : Difficulty) : DifficultyProgress :=
  if isDifficultyUnlocked s d then s
  else { s with unlockedDifficulties := s.unlockedDifficulties ++ [d] }

/-- `DifficultyManager.checkDifficultyUnlocks`: medium unlocks at 5 total
wins, hard at 15 total wins and 8 medium wins. -/
def checkDifficultyUnlocks (s : DifficultyProgress) : DifficultyProgress :=
  let totalWins := getTotalWins s
  let mediumWins := s.statsMedium.wins
  let s1 :=
    if isDifficultyUnlocked s .medium then s
    else if 5 ≤ totalWins then unlockDifficulty s .medium else s
  let s2 :=
    if isDifficultyUnlocked s1 .hard then s1
    else if 15 ≤ totalWins ∧ 8 ≤ mediumWins then unlockDifficulty s1 .hard else s1
  s2

/-- The counter increment inside `recordBattleResult`. -/
def bumpStats (s : DifficultyProgress) (d : Difficulty) (won : Bool) : DifficultyProgress :=
  match d with
  | .easy =>
    if won then { s with statsEasy := { s.statsEasy with wins := s.statsEasy.wins + 1 } }
    else { s with statsEasy := { s.statsEasy with losses := s.statsEasy.losses + 1 } }
  | .medium =>
    if won then { s with statsMedium := { s.statsMedium with wins := s.statsMedium.wins + 1 } }
    else { s with statsMedium := { s.statsMedium with losses := s.statsMedium.losses + 1 } }
  | .hard =>
    if won then { s with statsHard := { s.statsHard with wins := s.statsHard.wins + 1 } }
    else { s with statsHard := { s.statsHard with losses := s.statsHard.losses + 1 } }

/-- `DifficultyManager.recordBattleResult`: resolve the result's difficulty
(falling back to the current one), record the win or loss, then re-evaluate
unlocks.  Persistence and the DOM events are outside the model. -/
def recordBattleResult (s : DifficultyProgress) (won : Bool)
    (difficulty : Option Difficulty) : DifficultyProgress :=
  checkDifficultyUnlocks (bumpStats s (difficulty.getD s.currentDifficulty) won)

/-- `experienceMultiplier` of `difficultyStats` (1.0 / 1.2 / 1.5). -/
def experienceMultiplier : Difficulty → ℚ
  | .easy => 1
  | .medium => 6 / 5
  | .hard => 3 / 2

/-- `criticalHitChance` of `difficultyStats` (0.05 / 0.1 / 0.15). -/
def difficultyCritChance : Difficulty → ℚ
  | .easy => 1 / 20
  | .medium => 1 / 10
  | .hard => 3 / 20

/-! ## AIOpponent (src/js/ai-opponent.js)

`Math.random()` draws are made explicit as a list of rationals consumed in
source order (`draw` returns 0 once the list is exhausted); a draw happens
exactly where the source evaluates `Math.random()`, including JS
short-circuit evaluation. -/

/-- A battle action. -/
inductive Action where
  | attack
  | special
  | defend
deriving DecidableEq, Repr, Inhabited

/-- Take the next explicit random draw. -/
def draw : List ℚ → ℚ × List ℚ
  | [] => (0, [])
  | q :: qs => (q, qs)

/-- Numeric personality traits. -/
structure PersonalityTraits where
  attackPreference : ℚ
  specialAttackUsage : ℚ
  riskTolerance : ℚ
  adaptability : ℚ
deriving Repr, DecidableEq

/-- A named AI personality. -/
structure Personality where
  pname : String
  traits : PersonalityTraits
deriving Repr, DecidableEq

/-- The five personalities of `AIOpponent.generatePersonality` (the random
pick among them is a parameter of the model). -/
def personalities : List Personality :=
  [⟨"Aggressive", ⟨7/10, 2/5, 4/5, 3/10⟩⟩,
   ⟨"Defensive", ⟨3/10, 1/5, 1/5, 3/5⟩⟩,
   ⟨"Tactical", ⟨1/2, 3/5, 2/5, 4/5⟩⟩,
   ⟨"Berserker", ⟨9/10, 7/10, 9/10, 1/10⟩⟩,
   ⟨"Cautious", ⟨2/5, 3/10, 3/10, 7/10⟩⟩]

/-- `AIOpponent.getDifficultyParams`. -/
structure BehaviorParams where
  decisionAccuracy : ℚ
  strategyConsistency : ℚ
  adaptationSpeed : ℚ
  mistakeChance : ℚ
  optimalPlayChance : ℚ
deriving Repr, DecidableEq

/-- Difficulty-based behavior parameters (easy / medium / hard rows of the
source table). -/
def getDifficultyParams : Difficulty → BehaviorParams
  | .easy => ⟨3/5, 2/5, 3/10, 3/10, 1/5⟩
  | .medium => ⟨3/4, 3/5, 1/2, 3/20, 2/5⟩
  | .hard => ⟨9/10, 4/5, 7/10, 1/20, 7/10⟩

/-- Per-side action tracking of a battle
(`playerActions` / `opponentActions`). -/
structure SideActions where
  lastAction : Option Action
  consecutiveDefends : ℕ
  specialAttacksUsed : ℕ
  lastDamageDealt : ℤ
deriving Repr, DecidableEq, Inhabited

/-- Initial tracking state at battle start. -/
def initialSideActions : SideActions := ⟨none, 0, 0, 0⟩

/-- AI memory (`this.memory`).  The `ownActions` decision log is omitted:
`logDecision` only writes to it and no decision reads it. -/
structure AIMemory where
  playerActions : List Action
  damageDealt : ℤ
  damageTaken : ℤ
  turnsElapsed : ℕ
deriving Repr, DecidableEq

/-- Fresh AI memory. -/
def initialAIMemory : AIMemory := ⟨[], 0, 0, 0⟩

/-- The battle-state view `BattleEngine.makeAIDecision` hands to
`AIOpponent.makeDecision`. -/
structure AIBattleView where
  playerCreature : Creature
  opponentCreature : Creature
  playerActions : SideActions
  opponentActions : SideActions
  lastPlayerAction : Option Action
  lastDamageToAI : ℤ
  lastDamageToPlayer : ℤ
deriving Repr

/-- `AIOpponent.updateMemory`: bump the turn counter, append the observed
player action to the rolling 5-element window, accumulate damage.  (A damage
value of 0 is falsy in JS and skipped there; adding 0 is the identity, so
the model adds unconditionally.) -/
def updateMemory (m : AIMemory) (bs : AIBattleView) : AIMemory :=
  let m := { m with turnsElapsed := m.turnsElapsed + 1 }
  let m :=
    match bs.lastPlayerAction with
    | some a =>
      let pa := m.playerActions ++ [a]
      { m with playerActions := if 5 < pa.length then pa.tail else pa }
    | none => m
  { m with damageTaken := m.damageTaken + bs.lastDamageToAI,
           damageDealt := m.damageDealt + bs.lastDamageToPlayer }

/-- Health buckets of `getHealthStatus`. -/
inductive HealthStatus where
  | healthy
  | wounded
  | critical
  | desperate
deriving DecidableEq, Repr

/-- `AIOpponent.getHealthStatus`. -/
def getHealthStatus (pct : ℚ) : HealthStatus :=
  if 3/4 < pct then .healthy
  else if 1/2 < pct then .wounded
  else if 1/4 < pct then .critical
  else .desperate

/-- The classification returned by `analyzePlayerPattern` (`"<a>_heavy"`
becomes `heavy a`). -/
inductive PatternType where
  | unknown
  | heavy (a : Action)
  | alternating
  | escalating
  | random
deriving DecidableEq, Repr

/-- Result of `analyzePlayerPattern`.  `mostCommon` is `none` exactly when
the source leaves the field undefined (fewer than 2 observed actions). -/
structure PatternInfo where
  ptype : PatternType
  confidence : ℚ
  mostCommon : Option Action
deriving Repr, DecidableEq

/-- Keys of the `actionCounts` object in first-occurrence (insertion)
order. -/
def firstOccurrences (actions : List Action) : List Action :=
  actions.foldl (fun ks a => if ks.contains a then ks else ks ++ [a]) []

/-- The `Object.keys(actionCounts).reduce((a, b) => counts[a] > counts[b] ?
a : b)` step: strict comparison, so ties resolve to the later key. -/
def mostCommonAction (actions : List Action) : Option Action :=
  match firstOccurrences actions with
  | [] => none
  | k :: ks =>
    some (ks.foldl (fun a b => if actions.count b < actions.count a then a else b) k)

/-- Kernel of `isAlternatingPattern`: every element from index 2 on equals
the element two places before it. -/
def alternatingFrom : List Action → Bool
  | a :: b :: c :: rest => a == c && alternatingFrom (b :: c :: rest)
  | _ => true

/-- `AIOpponent.isAlternatingPattern`. -/
def isAlternatingPattern (actions : List Action) : Bool :=
  if actions.length < 4 then false else alternatingFrom actions

/-- `AIOpponent.isEscalatingPattern`: the last three actions are exactly
attack, special, defend. -/
def isEscalatingPattern (actions : List Action) : Bool :=
  if actions.length < 3 then false
  else actions.drop (actions.length - 3) == [.attack, .special, .defend]

/-- `AIOpponent.analyzePlayerPattern`. -/
def analyzePlayerPattern (actions : List Action) : PatternInfo :=
  if actions.length < 2 then ⟨.unknown, 0, none⟩
  else
    match mostCommonAction actions with
    | none => ⟨.unknown, 0, none⟩
    | some mc =>
      let confidence : ℚ := (actions.count mc : ℚ) / (actions.length : ℚ)
      let ptype :=
        if 3/5 < confidence then PatternType.heavy mc
        else if isAlternatingPattern actions then .alternating
        else if isEscalatingPattern actions then .escalating
        else .random
      ⟨ptype, confidence, some mc⟩

/-- `AIOpponent.calculateUrgency`. -/
def calculateUrgency (aiHp playerHp : ℚ) : ℚ :=
  let hpUrgency := max 0 ((1/2 - aiHp) * 2)
  let threatUrgency := max 0 ((3/10 - playerHp) * (-1))
  min 1 (hpUrgency + threatUrgency)

/-- The situation analysis of `analyzeBattleSituation`.  `damageShare` is
the source's damage ratio field. -/
structure Situation where
  aiHealthStatus : HealthStatus
  playerHealthStatus : HealthStatus
  healthAdvantage : ℚ
  attackAdvantage : ℤ
  defenseAdvantage : ℤ
  speedAdvantage : ℤ
  turnsElapsed : ℕ
  damageShare : ℚ
  playerPattern : PatternInfo
  urgency : ℚ
  canUseSpecial : Bool
  shouldAvoidDefend : Bool
deriving Repr, DecidableEq

/-- `AIOpponent.analyzeBattleSituation` (on the already-updated memory). -/
def analyzeBattleSituation (m : AIMemory) (bs : AIBattleView) : Situation :=
  let ai := bs.opponentCreature.stats
  let pl := bs.playerCreature.stats
  let aiPct : ℚ := (ai.hp : ℚ) / (ai.maxHp : ℚ)
  let plPct : ℚ := (pl.hp : ℚ) / (pl.maxHp : ℚ)
  { aiHealthStatus := getHealthStatus aiPct
    playerHealthStatus := getHealthStatus plPct
    healthAdvantage := aiPct - plPct
    attackAdvantage := ai.attack - pl.attack
    defenseAdvantage := ai.defense - pl.defense
    speedAdvantage := ai.speed - pl.speed
    turnsElapsed := m.turnsElapsed
    damageShare := if 0 < m.damageTaken then (m.damageDealt : ℚ) / (m.damageTaken : ℚ) else 1
    playerPattern := analyzePlayerPattern m.playerActions
    urgency := calculateUrgency aiPct plPct
    canUseSpecial := bs.opponentActions.specialAttacksUsed < 3
    shouldAvoidDefend := 2 ≤ bs.opponentActions.consecutiveDefends }

/-- The three scored strategies. -/
inductive Strategy where
  | aggressive
  | defensive
  | tactical
deriving DecidableEq, Repr

/-- `AIOpponent.determineStrategy`: sum the health, advantage, urgency,
pattern-counter and personality contributions, then pick the maximum via
the source's strict-greater reduce over the keys in declaration order, so
ties resolve to the later key. -/
def determineStrategy (sit : Situation) (p : Personality) : Strategy :=
  let sAgg : ℚ :=
    (if sit.aiHealthStatus = .desperate then 2/5 else 0) +
    (if sit.aiHealthStatus = .healthy then 1/5 else 0) +
    (if 10 < sit.attackAdvantage then 3/10 else 0) +
    (if 7/10 < sit.urgency then 2/5 else 0) +
    (if sit.playerPattern.ptype = .heavy .defend then 3/10 else 0) +
    p.traits.attackPreference * (3/10)
  let sDef : ℚ :=
    (if sit.aiHealthStatus = .desperate then -(1/5) else 0) +
    (if sit.aiHealthStatus = .critical then 3/10 else 0) +
    (if 10 < sit.defenseAdvantage then 1/5 else 0) +
    (if 7/10 < sit.urgency then -(3/10) else 0) +
    (if sit.playerPattern.ptype = .heavy .attack then 3/10 else 0) +
    (1 - p.traits.riskTolerance) * (1/5)
  let sTac : ℚ :=
    (if sit.aiHealthStatus = .critical then 1/5 else 0) +
    p.traits.adaptability * (1/5)
  let w1 := if sDef < sAgg then Strategy.aggressive else .defensive
  let s1 := if sDef < sAgg then sAgg else sDef
  if sTac < s1 then w1 else .tactical

/-- `AIOpponent.counterPlayerPattern` (undefined `mostCommon` falls through
to the default). -/
def counterPlayerPattern (mostCommon : Option Action) : Action :=
  match mostCommon with
  | some .attack => .defend
  | some .special => .attack
  | some .defend => .special
  | none => .attack

/-- `AIOpponent.executeAggressiveStrategy`. -/
def executeAggressiveStrategy (sit : Situation) (rng : List ℚ) : Action × List ℚ :=
  if sit.canUseSpecial then
    let (r, rng1) := draw rng
    if r < 3/5 then (.special, rng1)
    else
      let (r2, rng2) := draw rng1
      if r2 < 4/5 then (.attack, rng2) else (.defend, rng2)
  else
    let (r2, rng1) := draw rng
    if r2 < 4/5 then (.attack, rng1) else (.defend, rng1)

/-- The final mix of `executeDefensiveStrategy` (defend 0.4, else attack
0.7, else special). -/
def defensiveMix (rng : List ℚ) : Action × List ℚ :=
  let (r, rng1) := draw rng
  if r < 2/5 then (.defend, rng1)
  else
    let (r2, rng2) := draw rng1
    if r2 < 7/10 then (.attack, rng2) else (.special, rng2)

/-- `AIOpponent.executeDefensiveStrategy`.  Note: the avoid-consecutive-
defends branch and the final mix can return `special` without consulting
`canUseSpecial`. -/
def executeDefensiveStrategy (sit : Situation) (rng : List ℚ) : Action × List ℚ :=
  if sit.shouldAvoidDefend then
    let (r, rng1) := draw rng
    (if r < 7/10 then .attack else .special, rng1)
  else if sit.aiHealthStatus = .critical then
    let (r, rng1) := draw rng
    if r < 3/5 then (.defend, rng1)
    else defensiveMix rng1
  else defensiveMix rng

/-- The balanced tail of `executeTacticalStrategy` (one draw compared to
0.5 and 0.75). -/
def tacticalBalanced (rng : List ℚ) : Action × List ℚ :=
  let (r, rng1) := draw rng
  if r < 1/2 then (.attack, rng1)
  else if r < 3/4 then (.defend, rng1)
  else (.special, rng1)

/-- `AIOpponent.executeTacticalStrategy`. -/
def executeTacticalStrategy (sit : Situation) (rng : List ℚ) : Action × List ℚ :=
  if 3/5 < sit.playerPattern.confidence then
    (counterPlayerPattern sit.playerPattern.mostCommon, rng)
  else if sit.canUseSpecial ∧ 1/2 < sit.urgency then
    let (r, rng1) := draw rng
    if r < 2/5 then (.special, rng1)
    else tacticalBalanced rng1
  else tacticalBalanced rng

/-- `AIOpponent.executeStrategy` dispatcher (the default branch is
unreachable for the enum). -/
def executeStrategy (strategy : Strategy) (sit : Situation) (rng : List ℚ) :
    Action × List ℚ :=
  match strategy with
  | .aggressive => executeAggressiveStrategy sit rng
  | .defensive => executeDefensiveStrategy sit rng
  | .tactical => executeTacticalStrategy sit rng

/-- `AIOpponent.getOptimalAction`. -/
def getOptimalAction (sit : Situation) : Action :=
  if sit.aiHealthStatus = .desperate then
    if sit.canUseSpecial then .special else .attack
  else if sit.playerHealthStatus = .critical then .attack
  else if sit.healthAdvantage < -(3/10) then .defend
  else .attack

/-- `AIOpponent.applyDifficultyModifications`: easy replaces the decision by
a uniform action with probability `mistakeChance`; hard replaces it by the
optimal action with probability `optimalPlayChance`; medium draws nothing. -/
def applyDifficultyModifications (difficulty : Difficulty) (decision : Action)
    (sit : Situation) (rng : List ℚ) : Action × List ℚ :=
  let params := getDifficultyParams difficulty
  if difficulty = .easy then
    let (r, rng1) := draw rng
    if r < params.mistakeChance then
      let (r2, rng2) := draw rng1
      let idx := (⌊r2 * 3⌋).toNat
      (([Action.attack, .special, .defend]).getD idx .attack, rng2)
    else (decision, rng1)
  else if difficulty = .hard then
    let (r, rng1) := draw rng
    if r < params.optimalPlayChance then (getOptimalAction sit, rng1)
    else (decision, rng1)
  else (decision, rng)

/-- Instance state of one `AIOpponent`. -/
structure AIOpponentState where
  difficulty : Difficulty
  personality : Personality
  memory : AIMemory
deriving Repr

/-- `AIOpponent.makeDecision`: update memory, analyze, pick and execute a
strategy, then apply difficulty noise.  Returns the chosen action, the
instance with its updated memory, and the remaining draws. -/
def makeDecision (ai : AIOpponentState) (bs : AIBattleView) (rng : List ℚ) :
    Action × AIOpponentState × List ℚ :=
  let m := updateMemory ai.memory bs
  let sit := analyzeBattleSituation m bs
  let strategy := determineStrategy sit ai.personality
  let (decision, rng1) := executeStrategy strategy sit rng
  let (final, rng2) := applyDifficultyModifications ai.difficulty decision sit rng1
  (final, { ai with memory := m }, rng2)

/-! ## BattleEngine (src, BattleEngine class)

Battle timestamps, ids, the `aiInfo` display snapshot and the AI analysis
summary are presentation data no control flow reads; they are omitted.  Log
entries are normalized to one record shape (the source pushes ad hoc
objects). -/

/-- The acting side. -/
inductive Side where
  | player
  | opponent
deriving DecidableEq, Repr, Inhabited

/-- Battle status: `active → won | lost`. -/
inductive BattleStatus where
  | active
  | won
  | lost
deriving DecidableEq, Repr, Inhabited

/-- One battle-log entry. -/
structure LogEntry where
  kind : String
  actor : Option Side
  actionType : Option Action
  damage : ℤ
  critical : Bool
  message : String
deriving Repr, DecidableEq, Inhabited

/-- The battle record created by `initiateBattle`.  `difficulty` stores the
(possibly null) `difficulty` argument, exactly as the source does. -/
structure Battle where
  playerCreature : Creature
  opponentCreature : Creature
  difficulty : Option Difficulty
  currentTurn : Side
  turnCount : ℕ
  battleLog : List LogEntry
  status : BattleStatus
  playerActions : SideActions
  opponentActions : SideActions
  winner : Option Side
  experienceReward : ℤ
deriving Repr, Inhabited

/-- The per-action result record of `executeAction`. -/
structure ActionResult where
  actor : Side
  actionType : Action
  damage : ℤ
  critical : Bool
  blocked : Bool
  message : String
  attackerHp : ℤ
  defenderHp : ℤ
deriving Repr, DecidableEq, Inhabited

/-- Instance state of one `BattleEngine`. -/
structure EngineState where
  currentBattle : Option Battle
  battleHistory : List Battle
  aiOpponent : Option AIOpponentState
  difficultyManager : Option DifficultyProgress
deriving Repr

/-- `BattleEngine.addBattleLogEntry`. -/
def addBattleLogEntry (b : Battle) (e : LogEntry) : Battle :=
  { b with battleLog := b.battleLog ++ [e] }

/-- `BattleEngine.calculateDamage`: special multiplies attack by 1.3, a
defending defender's defense is increased by 50%, the difference is floored
at 1, a ±20% variance is applied, floored again and clamped to at least 1. -/
def calculateDamage (b : Battle) (attacker defender : Creature)
    (specialAttack : Bool) (rng : List ℚ) : ℤ × List ℚ :=
  let baseDamage : ℚ := (attacker.stats.attack : ℚ) * (if specialAttack then 13/10 else 1)
  let defenderActions := if b.currentTurn = .player then b.opponentActions else b.playerActions
  let defense : ℚ := (defender.stats.defense : ℚ) *
    (if defenderActions.lastAction = some .defend then 1 + 1/2 else 1)
  let damage : ℚ := max 1 (baseDamage - defense)
  let (r, rng') := draw rng
  let varied : ℤ := ⌊damage * (1 + (r - 1/2) * (1/5) * 2)⌋
  (max 1 varied, rng')

/-- `BattleEngine.checkCriticalHit`: base chance 0.05, overridden by the
difficulty-scaled value on opponents carrying `difficultyBonuses` when a
difficulty manager is present, plus 1% per level, times the modifier. -/
def checkCriticalHit (dmPresent : Bool) (attacker : Creature) (modifier : ℚ)
    (rng : List ℚ) : Bool × List ℚ :=
  let baseChance : ℚ :=
    if attacker.isOpponent && dmPresent && attacker.difficultyBonusCrit.isSome then
      attacker.difficultyBonusCrit.getD (1/20)
    else 1/20
  let totalChance : ℚ := (baseChance + (attacker.level : ℚ) * (1/100)) * modifier
  let (r, rng') := draw rng
  (decide (r < totalChance), rng')

/-- `BattleEngine.executeAction`.  The attacker/defender arguments of the
source are recovered from `actor`; the mutations of the creature objects and
of `lastDamageDealt` become functional updates of the battle. -/
def executeAction (dmPresent : Bool) (b : Battle) (actionType : Action)
    (actor : Side) (rng : List ℚ) : Battle × ActionResult × List ℚ :=
  let attacker := if actor = .player then b.playerCreature else b.opponentCreature
  let defender := if actor = .player then b.opponentCreature else b.playerCreature
  match actionType with
  | .attack =>
    let (dmg0, rng1) := calculateDamage b attacker defender false rng
    let (crit, rng2) := checkCriticalHit dmPresent attacker 1 rng1
    let dmg := if crit then ⌊(dmg0 : ℚ) * (3/2)⌋ else dmg0
    let defender' := { defender with stats := { defender.stats with hp := max 0 (defender.stats.hp - dmg) } }
    let msg :=
      if crit then attacker.name ++ " lands a critical hit for " ++ toString dmg ++ " damage!"
      else attacker.name ++ " attacks for " ++ toString dmg ++ " damage!"
    let b1 :=
      if actor = .player then
        { b with opponentCreature := defender',
                 playerActions := { b.playerActions with lastDamageDealt := dmg } }
      else
        { b with playerCreature := defender',
                 opponentActions := { b.opponentActions with lastDamageDealt := dmg } }
    let result : ActionResult :=
      { actor := actor, actionType := actionType, damage := dmg, critical := crit,
        blocked := false, message := msg, attackerHp := attacker.stats.hp,
        defenderHp := defender'.stats.hp }
    (addBattleLogEntry b1 ⟨"action", some actor, some actionType, dmg, crit, msg⟩, result, rng2)
  | .special =>
    let (dmg0, rng1) := calculateDamage b attacker defender true rng
    let (crit, rng2) := checkCriticalHit dmPresent attacker (1/2) rng1
    let dmg := if crit then ⌊(dmg0 : ℚ) * (3/2)⌋ else dmg0
    let defender' := { defender with stats := { defender.stats with hp := max 0 (defender.stats.hp - dmg) } }
    let msg :=
      if crit then attacker.name ++ " unleashes a critical special attack for " ++ toString dmg ++ " damage!"
      else attacker.name ++ " uses a special attack for " ++ toString dmg ++ " damage!"
    let b1 :=
      if actor = .player then
        { b with opponentCreature := defender',
                 playerActions := { b.playerActions with lastDamageDealt := dmg } }
      else
        { b with playerCreature := defender',
                 opponentActions := { b.opponentActions with lastDamageDealt := dmg } }
    let result : ActionResult :=
      { actor := actor, actionType := actionType, damage := dmg, critical := crit,
        blocked := false, message := msg, attackerHp := attacker.stats.hp,
        defenderHp := defender'.stats.hp }
    (addBattleLogEntry b1 ⟨"action", some actor, some actionType, dmg, crit, msg⟩, result, rng2)
  | .defend =>
    let healAmount : ℤ := ⌊(attacker.stats.maxHp : ℚ) * (1/10)⌋
    let attacker' := { attacker with stats :=
      { attacker.stats with hp := min attacker.stats.maxHp (attacker.stats.hp + healAmount) } }
    let msg :=
      if 0 < healAmount then attacker.name ++ " defends and recovers " ++ toString healAmount ++ " HP!"
      else attacker.name ++ " takes a defensive stance!"
    let b1 :=
      if actor = .player then { b with playerCreature := attacker' }
      else { b with opponentCreature := attacker' }
    let result : ActionResult :=
      { actor := actor, actionType := actionType, damage := 0, critical := false,
        blocked := false, message := msg, attackerHp := attacker'.stats.hp,
        defenderHp := defender.stats.hp }
    (addBattleLogEntry b1 ⟨"action", some actor, some actionType, 0, false, msg⟩, result, rng)

/-- `BattleEngine.updateActionTracking`. -/
def updateActionTracking (b : Battle) (actor : Side) (actionType : Action) : Battle :=
  let upd : SideActions → SideActions := fun a =>
    let a := { a with lastAction := some actionType }
    let a :=
      if actionType = .defend then { a with consecutiveDefends := a.consecutiveDefends + 1 }
      else { a with consecutiveDefends := 0 }
    if actionType = .special then { a with specialAttacksUsed := a.specialAttacksUsed + 1 }
    else a
  if actor = .player then { b with playerActions := upd b.playerActions }
  else { b with opponentActions := upd b.opponentActions }

/-- `BattleEngine.calculateExperienceReward`: 0 on a loss, otherwise base 50
plus 10 per opponent level plus 20 per level of deficit, scaled by the
difficulty's experience multiplier (a null difficulty falls back to the
manager's current difficulty, or to 1.0 without a manager). -/
def calculateExperienceReward (s : EngineState) (b : Battle) (winner : Side) : ℤ :=
  if winner ≠ .player then 0
  else
    let opponentLevel := b.opponentCreature.level
    let playerLevel := b.playerCreature.level
    let experience : ℚ := 50 + (opponentLevel : ℚ) * 10 +
      (if playerLevel < opponentLevel then ((opponentLevel - playerLevel : ℤ) : ℚ) * 20 else 0)
    let mult : ℚ :=
      match s.difficultyManager with
      | some dm => experienceMultiplier (b.difficulty.getD dm.currentDifficulty)
      | none =>
        match b.difficulty with
        | some .easy => 4/5
        | some .medium => 1
        | some .hard => 13/10
        | none => 1
    ⌊experience * mult⌋

/-- `BattleEngine.endBattle`: set the terminal status, winner and reward,
log the end entry, report the result to the difficulty manager and append
the battle to the history. -/
def endBattle (s : EngineState) (winner : Side) : EngineState :=
  match s.currentBattle with
  | none => s
  | some b =>
    let reward := calculateExperienceReward s b winner
    let winnerCreature := if winner = .player then b.playerCreature else b.opponentCreature
    let entry : LogEntry :=
      ⟨"battle_end", none, none, 0, false, winnerCreature.name ++ " wins the battle!"⟩
    let b' := { b with
      status := if winner = .player then .won else .lost,
      winner := some winner, experienceReward := reward,
      battleLog := b.battleLog ++ [entry] }
    let dm' := s.difficultyManager.map
      (fun dm => recordBattleResult dm (winner = .player) b.difficulty)
    { s with currentBattle := some b', difficultyManager := dm',
             battleHistory := s.battleHistory ++ [b'] }

/-- `BattleEngine.checkBattleEnd`: `true` when there is no active battle or
when a side's hp reached 0 (ending the battle as a side effect). -/
def checkBattleEnd (s : EngineState) : EngineState × Bool :=
  match s.currentBattle with
  | none => (s, true)
  | some b =>
    if b.status ≠ .active then (s, true)
    else if b.playerCreature.stats.hp ≤ 0 then (endBattle s .opponent, true)
    else if b.opponentCreature.stats.hp ≤ 0 then (endBattle s .player, true)
    else (s, false)

/-- The tail of `makeSimpleAIDecision` (occasional special while under the
cap, otherwise attack). -/
def simpleDecisionTail (acts : SideActions) (rng : List ℚ) : Action × List ℚ :=
  if acts.specialAttacksUsed < 3 then
    let (r, rng1) := draw rng
    if r < 1/4 then (.special, rng1) else (.attack, rng1)
  else (.attack, rng)

/-- `BattleEngine.makeSimpleAIDecision` (fallback when no `AIOpponent` is
attached). -/
def makeSimpleAIDecision (b : Battle) (rng : List ℚ) : Action × List ℚ :=
  let opponent := b.opponentCreature
  let acts := b.opponentActions
  let hpPct : ℚ := (opponent.stats.hp : ℚ) / (opponent.stats.maxHp : ℚ)
  if hpPct < 3/10 ∧ acts.consecutiveDefends < 2 then
    let (r, rng1) := draw rng
    if r < 2/5 then (.defend, rng1)
    else simpleDecisionTail acts rng1
  else simpleDecisionTail acts rng

/-- `BattleEngine.makeAIDecision`: delegate to the attached `AIOpponent`
(building the battle-state view), or fall back to the simple decision. -/
def makeAIDecision (s : EngineState) (b : Battle) (rng : List ℚ) :
    Action × Option AIOpponentState × List ℚ :=
  match s.aiOpponent with
  | none =>
    let (a, rng') := makeSimpleAIDecision b rng
    (a, none, rng')
  | some ai =>
    let view : AIBattleView :=
      { playerCreature := b.playerCreature, opponentCreature := b.opponentCreature,
        playerActions := b.playerActions, opponentActions := b.opponentActions,
        lastPlayerAction := b.playerActions.lastAction,
        lastDamageToAI := b.playerActions.lastDamageDealt,
        lastDamageToPlayer := b.opponentActions.lastDamageDealt }
    let (a, ai', rng') := makeDecision ai view rng
    (a, some ai', rng')

/-- Apply an update to the current battle, when present. -/
def mapBattle (s : EngineState) (f : Battle → Battle) : EngineState :=
  { s with currentBattle := s.currentBattle.map f }

/-- `BattleEngine.executePlayerAction`: throws (modelled as `Except.error`,
raised before any mutation, so the state is unchanged) when there is no
current battle, the battle is not active, or it is not the player's turn;
otherwise executes the action, tracks it, checks for battle end and, if the
battle continues, hands the turn to the opponent and bumps `turnCount`. -/
def executePlayerAction (s : EngineState) (actionType : Action) (rng : List ℚ) :
    Except String (EngineState × ActionResult × List ℚ) :=
  match s.currentBattle with
  | none => .error "No active battle"
  | some b =>
    if b.status ≠ .active then .error "No active battle"
    else if b.currentTurn ≠ .player then .error "Not player turn"
    else
      let er := executeAction s.difficultyManager.isSome b actionType .player rng
      let b2 := updateActionTracking er.1 .player actionType
      let ce := checkBattleEnd { s with currentBattle := some b2 }
      if ce.2 then .ok (ce.1, er.2.1, er.2.2)
      else
        .ok (mapBattle ce.1 (fun bb =>
               { bb with currentTurn := .opponent, turnCount := bb.turnCount + 1 }),
             er.2.1, er.2.2)

/-- `BattleEngine.executeAIAction`: same guards with the opponent's turn;
the action comes from `makeAIDecision`; on continuation the turn flips back
to the player without bumping `turnCount`. -/
def executeAIAction (s : EngineState) (rng : List ℚ) :
    Except String (EngineState × ActionResult × List ℚ) :=
  match s.currentBattle with
  | none => .error "No active battle"
  | some b =>
    if b.status ≠ .active then .error "No active battle"
    else if b.currentTurn ≠ .opponent then .error "Not opponent turn"
    else
      let dec := makeAIDecision s b rng
      let actionType := dec.1
      let s0 := { s with aiOpponent :=
        match dec.2.1 with | some ai => some ai | none => s.aiOpponent }
      let er := executeAction s0.difficultyManager.isSome b actionType .opponent dec.2.2
      let b2 := updateActionTracking er.1 .opponent actionType
      let ce := checkBattleEnd { s0 with currentBattle := some b2 }
      if ce.2 then .ok (ce.1, er.2.1, er.2.2)
      else .ok (mapBattle ce.1 (fun bb => { bb with currentTurn := .player }),
                er.2.1, er.2.2)

/-! ## Derived forms and concrete inputs used by the theorems -/

/-- One level-up's stat recomputation, as a function of the barcode-derived
base stats, the new level and the previous stats: every stat is re-derived
for the new level (`+5` per level), and hp is the new maximum scaled by the
previous hp-to-maxHp share, floored, with a minimum of 1.  This is
`updateStatsForLevel` with its inputs made explicit. -/
def levelUpStatsStep (base : Stats) (level : ℤ) (st : Stats) : Stats :=
  let newMaxHp := calculateStatAtLevel base.maxHp level
  { maxHp := newMaxHp
    attack := calculateStatAtLevel base.attack level
    defense := calculateStatAtLevel base.defense level
    speed := calculateStatAtLevel base.speed level
    hp := max 1 ⌊(newMaxHp : ℚ) * ((st.hp : ℚ) / (st.maxHp : ℚ))⌋ }

/-- Total experience consumed by `k` consecutive level-ups starting at
`level`: the sum of `calculateExperienceToNext` over the levels passed. -/
def expConsumed (level : ℤ) : ℕ → ℤ
  | 0 => 0
  | k + 1 => calculateExperienceToNext level + expConsumed (level + 1) k

/-- Stats after `k` consecutive level-ups starting from `st` at `level`. -/
def statsAfterLevelUps (base : Stats) (level : ℤ) (st : Stats) : ℕ → Stats
  | 0 => st
  | k + 1 =>
    statsAfterLevelUps base (level + 1) (levelUpStatsStep base (level + 1) st) k

/-- A structurally valid collection creature whose stored experience already
exceeds its threshold (the validator does not compare the two fields). -/
def staleCreature : Creature :=
  { id := "stale", name := "Stale", barcode := "12345678",
    stats := ⟨100, 100, 50, 50, 50⟩, level := 1, experience := 150,
    experienceToNext := 100, battlesWon := 0, battlesLost := 0 }

/-- A freshly generated-looking creature with consistent leveling fields. -/
def freshCreature : Creature :=
  { id := "fresh", name := "Fresh", barcode := "12345678",
    stats := ⟨100, 100, 50, 50, 50⟩, level := 1, experience := 0,
    experienceToNext := 100, battlesWon := 0, battlesLost := 0 }

/-- Fold a sequence of recorded battle results (won flag and optional
difficulty) into the progression state, starting from the constructor
state. -/
def runBattleResults (results : List (Bool × Option Difficulty)) : DifficultyProgress :=
  results.foldl (fun s r => recordBattleResult s r.1 r.2) initialProgress

/-- The Defensive entry of the personality table. -/
def defensivePersonality : Personality :=
  ⟨"Defensive", ⟨3/10, 1/5, 1/5, 3/5⟩⟩

/-- A mid-battle state in which the AI side has exhausted its three special
attacks and has defended twice in a row: AI creature at 40/100 HP, player at
30/100 HP, equal attack and defense. -/
def cappedBattleView : AIBattleView :=
  { playerCreature :=
      { freshCreature with stats := ⟨30, 100, 50, 50, 50⟩ }
    opponentCreature :=
      { freshCreature with stats := ⟨40, 100, 50, 50, 50⟩ }
    playerActions := { initialSideActions with lastAction := some .attack }
    opponentActions := { lastAction := some .defend, consecutiveDefends := 2,
                         specialAttacksUsed := 3, lastDamageDealt := 0 }
    lastPlayerAction := some .attack
    lastDamageToAI := 0
    lastDamageToPlayer := 0 }

/-! ## Helper lemmas -/

/-- `tmod` negates with its dividend (JS `%` semantics). -/
theorem neg_tmod_eq (a b : ℤ) : (-a).tmod b = -(a.tmod b) := by
  rw [Int.tmod_def, Int.tmod_def, Int.neg_tdiv]
  ring

/-- `clamp` stays above its lower bound when the bounds are ordered. -/
theorem le_clamp (v lo hi : ℤ) (h : lo ≤ hi) : lo ≤ clamp v lo hi := by
  unfold clamp
  omega

/-- `clamp` never exceeds its upper bound. -/
theorem clamp_le (v lo hi : ℤ) : clamp v lo hi ≤ hi := by
  unfold clamp
  omega

/-- The initial LCG state lies in `[1, 2146483646]` unless the JS remainder
of the seed is exactly `-2146483646` (the one residue the source's
normalization maps to 0). -/
theorem lcgInit_bounds (s : ℤ) (h : s.tmod 2147483647 ≠ -2147483646) :
    1 ≤ lcgInit s ∧ lcgInit s ≤ 2147483646 := by
  simp only [lcgInit]
  rcases le_or_lt 0 s with hs | hs
  · have h0 : 0 ≤ s.tmod 2147483647 := Int.tmod_nonneg _ hs
    have h1 : s.tmod 2147483647 < 2147483647 := Int.tmod_lt_of_pos _ (by norm_num)
    split <;> omega
  · have he : s.tmod 2147483647 = -((-s).tmod 2147483647) := by
      rw [← neg_tmod_eq, neg_neg]
    have h0 : 0 ≤ (-s).tmod 2147483647 := Int.tmod_nonneg _ (by omega)
    have h1 : (-s).tmod 2147483647 < 2147483647 := Int.tmod_lt_of_pos _ (by norm_num)
    rw [he] at h ⊢
    split <;> omega

/-- One LCG step preserves the state range `[1, 2146483646]`: the modulus
2147483647 is coprime to the multiplier 16807, so a nonzero state cannot
step to zero. -/
theorem lcgNext_bounds {c : ℤ} (h1 : 1 ≤ c) (h2 : c ≤ 2147483646) :
    1 ≤ lcgNext c ∧ lcgNext c ≤ 2147483646 := by
  unfold lcgNext
  have hnn : (0 : ℤ) ≤ c * 16807 := by positivity
  rw [Int.tmod_eq_emod hnn (by norm_num)]
  have h0 : 0 ≤ c * 16807 % 2147483647 := Int.emod_nonneg _ (by norm_num)
  have hlt : c * 16807 % 2147483647 < 2147483647 := Int.emod_lt_of_pos _ (by norm_num)
  have hne : c * 16807 % 2147483647 ≠ 0 := by
    intro hz
    have hdvd : (2147483647 : ℤ) ∣ c * 16807 := Int.dvd_of_emod_eq_zero hz
    have hcop : IsCoprime (2147483647 : ℤ) 16807 := by
      rw [Int.isCoprime_iff_gcd_eq_one]
      norm_num
    have hdc : (2147483647 : ℤ) ∣ c := hcop.dvd_of_dvd_mul_right hdvd
    have := Int.le_of_dvd (by omega) hdc
    omega
  omega

/-- All LCG states from a well-normalized seed stay in `[1, 2146483646]`. -/
theorem lcgState_bounds (s : ℤ) (h : s.tmod 2147483647 ≠ -2147483646) (n : ℕ) :
    1 ≤ lcgState s n ∧ lcgState s n ≤ 2147483646 := by
  induction n with
  | zero => exact lcgInit_bounds s h
  | succ k ih => exact lcgNext_bounds ih.1 ih.2

/-- One unfolding of the level-up loop on a successor fuel value. -/
theorem checkLevelUpGo_succ (fuel : ℕ) (c : Creature) (g : ℕ) :
    checkLevelUpGo (fuel + 1) c g =
      if c.experience < c.experienceToNext then (c, g)
      else if 50 < g + 1 then (levelUpOnce c, g + 1)
      else checkLevelUpGo fuel (levelUpOnce c) (g + 1) := by
  rw [checkLevelUpGo]

/-- `levelUpOnce` keeps the barcode. -/
theorem levelUpOnce_barcode (c : Creature) : (levelUpOnce c).barcode = c.barcode := rfl

/-- `levelUpOnce` increments the level. -/
theorem levelUpOnce_level (c : Creature) : (levelUpOnce c).level = c.level + 1 := rfl

/-- `levelUpOnce` consumes exactly the current threshold. -/
theorem levelUpOnce_experience (c : Creature) :
    (levelUpOnce c).experience = c.experience - c.experienceToNext := rfl

/-- `levelUpOnce` recomputes the threshold from the new level. -/
theorem levelUpOnce_experienceToNext (c : Creature) :
    (levelUpOnce c).experienceToNext = calculateExperienceToNext (c.level + 1) := rfl

/-- `levelUpOnce` recomputes the stats by the ratio-preserving step at the
new level. -/
theorem levelUpOnce_stats (c : Creature) :
    (levelUpOnce c).stats =
      levelUpStatsStep (calculateStats c.barcode) (c.level + 1) c.stats := rfl

/-- `expConsumed` at 0 level-ups. -/
theorem expConsumed_zero (level : ℤ) : expConsumed level 0 = 0 := rfl

/-- `expConsumed` unfolding at a successor. -/
theorem expConsumed_succ (level : ℤ) (k : ℕ) :
    expConsumed level (k + 1) =
      calculateExperienceToNext level + expConsumed (level + 1) k := rfl

/-- `statsAfterLevelUps` at 0 level-ups. -/
theorem statsAfterLevelUps_zero (base : Stats) (level : ℤ) (st : Stats) :
    statsAfterLevelUps base level st 0 = st := rfl

/-- `statsAfterLevelUps` unfolding at a successor. -/
theorem statsAfterLevelUps_succ (base : Stats) (level : ℤ) (st : Stats) (k : ℕ) :
    statsAfterLevelUps base level st (k + 1) =
      statsAfterLevelUps base (level + 1) (levelUpStatsStep base (level + 1) st) k := rfl

/-- The levels-gained counter of the loop never exceeds 51 when it starts at
most at 50. -/
theorem checkLevelUpGo_le (fuel : ℕ) : ∀ (c : Creature) (g : ℕ), g ≤ 50 →
    (checkLevelUpGo fuel c g).2 ≤ 51 := by
  induction fuel with
  | zero =>
    intro c g hg
    unfold checkLevelUpGo
    omega
  | succ k ih =>
    intro c g hg
    rw [checkLevelUpGo_succ]
    split
    · omega
    · split
      · omega
      · exact ih _ _ (by omega)

/-- Full invariant of the level-up loop, assuming the stored threshold is
consistent with the level: the counter only grows; the barcode is kept; the
level grows by exactly the counter increase `k`; exactly
`expConsumed c.level k` experience is consumed; the threshold stays
consistent; the stats are the `k`-fold iterate of the ratio-preserving
recompute; and with fuel and enough experience at least one level-up
happens. -/
theorem checkLevelUpGo_spec (fuel : ℕ) : ∀ (c : Creature) (g : ℕ),
    c.experienceToNext = calculateExperienceToNext c.level →
    g ≤ (checkLevelUpGo fuel c g).2 ∧
    (checkLevelUpGo fuel c g).1.barcode = c.barcode ∧
    (checkLevelUpGo fuel c g).1.level =
      c.level + (((checkLevelUpGo fuel c g).2 - g : ℕ) : ℤ) ∧
    (checkLevelUpGo fuel c g).1.experience +
      expConsumed c.level ((checkLevelUpGo fuel c g).2 - g) = c.experience ∧
    (checkLevelUpGo fuel c g).1.experienceToNext =
      calculateExperienceToNext (checkLevelUpGo fuel c g).1.level ∧
    (checkLevelUpGo fuel c g).1.stats =
      statsAfterLevelUps (calculateStats c.barcode) c.level c.stats
        ((checkLevelUpGo fuel c g).2 - g) ∧
    (1 ≤ fuel → c.experienceToNext ≤ c.experience →
      g < (checkLevelUpGo fuel c g).2) := by
  induction fuel with
  | zero =>
    intro c g hc
    unfold checkLevelUpGo
    refine ⟨le_refl g, rfl, ?_, ?_, hc, ?_, ?_⟩
    · simp [Nat.sub_self]
    · simp [Nat.sub_self, expConsumed]
    · simp [Nat.sub_self, statsAfterLevelUps]
    · omega
  | succ k ih =>
    intro c g hc
    rw [checkLevelUpGo_succ]
    by_cases hlt : c.experience < c.experienceToNext
    · rw [if_pos hlt]
      refine ⟨le_refl g, rfl, ?_, ?_, hc, ?_, ?_⟩
      · simp [Nat.sub_self]
      · simp [Nat.sub_self, expConsumed]
      · simp [Nat.sub_self, statsAfterLevelUps]
      · intro _ hge
        omega
    · rw [if_neg hlt]
      have hc2 : (levelUpOnce c).experienceToNext =
          calculateExperienceToNext (levelUpOnce c).level := by
        rw [levelUpOnce_experienceToNext, levelUpOnce_level]
      by_cases hcap : 50 < g + 1
      · rw [if_pos hcap]
        refine ⟨by omega, levelUpOnce_barcode c, ?_, ?_, ?_, ?_, ?_⟩
        · rw [levelUpOnce_level]
          simp
        · rw [levelUpOnce_experience]
          have he : g + 1 - g = 1 := by omega
          rw [he, expConsumed_succ, expConsumed_zero]
          omega
        · exact hc2
        · rw [levelUpOnce_stats]
          have he : g + 1 - g = 1 := by omega
          rw [he, statsAfterLevelUps_succ, statsAfterLevelUps_zero]
        · intro _ _
          omega
      · rw [if_neg hcap]
        obtain ⟨m1, m2, m3, m4, m5, m6, m7⟩ := ih (levelUpOnce c) (g + 1) hc2
        have hk : (checkLevelUpGo k (levelUpOnce c) (g + 1)).2 - g =
            ((checkLevelUpGo k (levelUpOnce c) (g + 1)).2 - (g + 1)) + 1 := by
          omega
        refine ⟨by omega, ?_, ?_, ?_, m5, ?_, ?_⟩
        · rw [m2, levelUpOnce_barcode]
        · rw [m3, levelUpOnce_level, hk]
          push_cast
          ring
        · rw [hk, expConsumed_succ]
          rw [levelUpOnce_level] at m4
          rw [levelUpOnce_experience] at m4
          omega
        · rw [m6, levelUpOnce_stats, levelUpOnce_barcode, levelUpOnce_level, hk,
            statsAfterLevelUps_succ]
        · intro _ _
          omega

/-- The level-up loop stops immediately when the creature's experience is
below its threshold. -/
theorem checkLevelUp_stop (c : Creature) (h : c.experience < c.experienceToNext) :
    checkLevelUp c = (c, 0) := by
  show checkLevelUpGo (50 + 1) c 0 = (c, 0)
  rw [checkLevelUpGo_succ, if_pos h]

/-- Unlocked-list membership characterizes `isDifficultyUnlocked`. -/
theorem isUnlocked_iff_mem (s : DifficultyProgress) (d : Difficulty) :
    isDifficultyUnlocked s d = true ↔ d ∈ s.unlockedDifficulties :=
  List.elem_iff

/-- Membership after `unlockDifficulty`. -/
theorem unlockDifficulty_mem (s : DifficultyProgress) (d d' : Difficulty) :
    d' ∈ (unlockDifficulty s d).unlockedDifficulties ↔
      (d' ∈ s.unlockedDifficulties ∨ d' = d) := by
  unfold unlockDifficulty
  split
  · rename_i hd
    rw [isUnlocked_iff_mem] at hd
    constructor
    · exact Or.inl
    · rintro (h | rfl)
      · exact h
      · exact hd
  · simp [List.mem_append]

/-- `unlockDifficulty` does not touch the counters. -/
theorem unlockDifficulty_stats (s : DifficultyProgress) (d : Difficulty) :
    (unlockDifficulty s d).statsEasy = s.statsEasy ∧
    (unlockDifficulty s d).statsMedium = s.statsMedium ∧
    (unlockDifficulty s d).statsHard = s.statsHard := by
  unfold unlockDifficulty
  split <;> exact ⟨rfl, rfl, rfl⟩

/-- `bumpStats` does not touch the unlocked list. -/
theorem bumpStats_unlocked (s : DifficultyProgress) (d : Difficulty) (won : Bool) :
    (bumpStats s d won).unlockedDifficulties = s.unlockedDifficulties := by
  cases d <;> simp only [bumpStats] <;> split <;> rfl

/-- One recorded result changes the total win count by at most one, upward. -/
theorem bumpStats_total (s : DifficultyProgress) (d : Difficulty) (won : Bool) :
    getTotalWins s ≤ getTotalWins (bumpStats s d won) ∧
      getTotalWins (bumpStats s d won) ≤ getTotalWins s + 1 := by
  cases d <;> simp only [bumpStats] <;> split <;> simp [getTotalWins] <;> omega

/-- One recorded result changes the medium win count by at most one,
upward. -/
theorem bumpStats_mediumWins (s : DifficultyProgress) (d : Difficulty) (won : Bool) :
    s.statsMedium.wins ≤ (bumpStats s d won).statsMedium.wins ∧
      (bumpStats s d won).statsMedium.wins ≤ s.statsMedium.wins + 1 := by
  cases d <;> simp only [bumpStats] <;> split <;> simp

/-- `checkDifficultyUnlocks` keeps the counters and adds exactly the
difficulties whose thresholds are met. -/
theorem checkDifficultyUnlocks_spec (t : DifficultyProgress) :
    (checkDifficultyUnlocks t).statsEasy = t.statsEasy ∧
    (checkDifficultyUnlocks t).statsMedium = t.statsMedium ∧
    (checkDifficultyUnlocks t).statsHard = t.statsHard ∧
    ∀ d, d ∈ (checkDifficultyUnlocks t).unlockedDifficulties ↔
      (d ∈ t.unlockedDifficulties ∨
       (d = .medium ∧ 5 ≤ getTotalWins t) ∨
       (d = .hard ∧ 15 ≤ getTotalWins t ∧ 8 ≤ t.statsMedium.wins)) := by
  simp only [checkDifficultyUnlocks]
  by_cases hm : isDifficultyUnlocked t .medium = true
  · rw [if_pos hm]
    rw [isUnlocked_iff_mem] at hm
    by_cases hh : isDifficultyUnlocked t .hard = true
    · rw [if_pos hh]
      rw [isUnlocked_iff_mem] at hh
      refine ⟨rfl, rfl, rfl, fun d => ?_⟩
      constructor
      · exact Or.inl
      · rintro (h | ⟨rfl, -⟩ | ⟨rfl, -⟩)
        · exact h
        · exact hm
        · exact hh
    · rw [if_neg hh]
      rw [isUnlocked_iff_mem] at hh
      by_cases hc : 15 ≤ getTotalWins t ∧ 8 ≤ t.statsMedium.wins
      · rw [if_pos hc]
        obtain ⟨e1, e2, e3⟩ := unlockDifficulty_stats t .hard
        refine ⟨e1, e2, e3, fun d => ?_⟩
        rw [unlockDifficulty_mem]
        constructor
        · rintro (h | rfl)
          · exact Or.inl h
          · exact Or.inr (Or.inr ⟨rfl, hc⟩)
        · rintro (h | ⟨rfl, -⟩ | ⟨rfl, -⟩)
          · exact Or.inl h
          · exact Or.inl hm
          · exact Or.inr rfl
      · rw [if_neg hc]
        refine ⟨rfl, rfl, rfl, fun d => ?_⟩
        constructor
        · exact Or.inl
        · rintro (h | ⟨rfl, -⟩ | ⟨rfl, hc'⟩)
          · exact h
          · exact hm
          · exact absurd hc' hc
  · rw [if_neg hm]
    rw [isUnlocked_iff_mem] at hm
    by_cases h5 : 5 ≤ getTotalWins t
    · rw [if_pos h5]
      have hhu : isDifficultyUnlocked (unlockDifficulty t .medium) .hard = true ↔
          Difficulty.hard ∈ t.unlockedDifficulties := by
        rw [isUnlocked_iff_mem, unlockDifficulty_mem]
        simp
      obtain ⟨e1, e2, e3⟩ := unlockDifficulty_stats t .medium
      by_cases hh : Difficulty.hard ∈ t.unlockedDifficulties
      · rw [if_pos (hhu.mpr hh)]
        refine ⟨e1, e2, e3, fun d => ?_⟩
        rw [unlockDifficulty_mem]
        constructor
        · rintro (h | rfl)
          · exact Or.inl h
          · exact Or.inr (Or.inl ⟨rfl, h5⟩)
        · rintro (h | ⟨rfl, -⟩ | ⟨rfl, -⟩)
          · exact Or.inl h
          · exact Or.inr rfl
          · exact Or.inl hh
      · rw [if_neg (fun hx => hh (hhu.mp hx))]
        by_cases hc : 15 ≤ getTotalWins t ∧ 8 ≤ t.statsMedium.wins
        · rw [if_pos hc]
          obtain ⟨f1, f2, f3⟩ := unlockDifficulty_stats (unlockDifficulty t .medium) .hard
          refine ⟨f1.trans e1, f2.trans e2, f3.trans e3, fun d => ?_⟩
          rw [unlockDifficulty_mem, unlockDifficulty_mem]
          constructor
          · rintro ((h | rfl) | rfl)
            · exact Or.inl h
            · exact Or.inr (Or.inl ⟨rfl, h5⟩)
            · exact Or.inr (Or.inr ⟨rfl, hc⟩)
          · rintro (h | ⟨rfl, -⟩ | ⟨rfl, -⟩)
            · exact Or.inl (Or.inl h)
            · exact Or.inl (Or.inr rfl)
            · exact Or.inr rfl
        · rw [if_neg hc]
          refine ⟨e1, e2, e3, fun d => ?_⟩
          rw [unlockDifficulty_mem]
          constructor
          · rintro (h | rfl)
            · exact Or.inl h
            · exact Or.inr (Or.inl ⟨rfl, h5⟩)
          · rintro (h | ⟨rfl, -⟩ | ⟨rfl, hc'⟩)
            · exact Or.inl h
            · exact Or.inr rfl
            · exact absurd hc' hc
    · rw [if_neg h5]
      by_cases hh : isDifficultyUnlocked t .hard = true
      · rw [if_pos hh]
        rw [isUnlocked_iff_mem] at hh
        refine ⟨rfl, rfl, rfl, fun d => ?_⟩
        constructor
        · exact Or.inl
        · rintro (h | ⟨rfl, h5'⟩ | ⟨rfl, -⟩)
          · exact h
          · exact absurd h5' h5
          · exact hh
      · rw [if_neg hh]
        rw [isUnlocked_iff_mem] at hh
        by_cases hc : 15 ≤ getTotalWins t ∧ 8 ≤ t.statsMedium.wins
        · rw [if_pos hc]
          obtain ⟨e1, e2, e3⟩ := unlockDifficulty_stats t .hard
          refine ⟨e1, e2, e3, fun d => ?_⟩
          rw [unlockDifficulty_mem]
          constructor
          · rintro (h | rfl)
            · exact Or.inl h
            · exact Or.inr (Or.inr ⟨rfl, hc⟩)
          · rintro (h | ⟨rfl, h5'⟩ | ⟨rfl, -⟩)
            · exact Or.inl h
            · exact absurd h5' h5
            · exact Or.inr rfl
        · rw [if_neg hc]
          refine ⟨rfl, rfl, rfl, fun d => ?_⟩
          constructor
          · exact Or.inl
          · rintro (h | ⟨rfl, h5'⟩ | ⟨rfl, hc'⟩)
            · exact h
            · exact absurd h5' h5
            · exact absurd hc' hc

/-- One `recordBattleResult` preserves the unlock invariant. -/
theorem recordBattleResult_inv (s : DifficultyProgress) (won : Bool)
    (diff : Option Difficulty)
    (he : Difficulty.easy ∈ s.unlockedDifficulties)
    (hm : Difficulty.medium ∈ s.unlockedDifficulties ↔ 5 ≤ getTotalWins s)
    (hh : Difficulty.hard ∈ s.unlockedDifficulties ↔
      (15 ≤ getTotalWins s ∧ 8 ≤ s.statsMedium.wins)) :
    Difficulty.easy ∈ (recordBattleResult s won diff).unlockedDifficulties ∧
    (Difficulty.medium ∈ (recordBattleResult s won diff).unlockedDifficulties ↔
      5 ≤ getTotalWins (recordBattleResult s won diff)) ∧
    (Difficulty.hard ∈ (recordBattleResult s won diff).unlockedDifficulties ↔
      (15 ≤ getTotalWins (recordBattleResult s won diff) ∧
       8 ≤ (recordBattleResult s won diff).statsMedium.wins)) := by
  unfold recordBattleResult
  set d := diff.getD s.currentDifficulty with hd
  set s1 := bumpStats s d won with hs1
  have fu : s1.unlockedDifficulties = s.unlockedDifficulties := bumpStats_unlocked s d won
  have ft := bumpStats_total s d won
  have fm := bumpStats_mediumWins s d won
  rw [← hs1] at ft fm
  obtain ⟨se, sm, sh, hmem⟩ := checkDifficultyUnlocks_spec s1
  have hT : getTotalWins (checkDifficultyUnlocks s1) = getTotalWins s1 := by
    unfold getTotalWins
    rw [se, sm, sh]
  refine ⟨?_, ?_, ?_⟩
  · rw [hmem]
    exact Or.inl (fu ▸ he)
  · rw [hmem, hT, fu]
    constructor
    · rintro (h | ⟨-, h5⟩ | ⟨hd', -⟩)
      · have := hm.mp h
        omega
      · exact h5
      · exact absurd hd' (by simp)
    · intro h5
      exact Or.inr (Or.inl ⟨rfl, h5⟩)
  · rw [hmem, hT, sm, fu]
    constructor
    · rintro (h | ⟨hd', -⟩ | ⟨-, hc⟩)
      · have := hh.mp h
        constructor <;> omega
      · exact absurd hd' (by simp)
      · exact hc
    · intro hc
      exact Or.inr (Or.inr ⟨rfl, hc⟩)

/-! ## Claim theorems -/

/-- C4: `validateBarcode` returns true exactly for strings of ASCII digits
whose length is between 8 and 20 inclusive (so length 7 or 21 or any
non-digit is rejected, and all-digit strings of length 8 and 20 are
accepted). -/
theorem validateBarcode_characterization (s : String) :
    validateBarcode s = true ↔
      ((∀ c ∈ s.data, c.isDigit = true) ∧ 8 ≤ s.length ∧ s.length ≤ 20) := by
  have hlen : s.length = s.data.length := rfl
  by_cases h1 : s.length < 8
  · simp only [validateBarcode, if_pos h1, Bool.false_eq_true, false_iff]
    rintro ⟨-, h8, -⟩
    omega
  · by_cases h2 : 20 < s.length
    · simp only [validateBarcode, if_neg h1, if_pos h2, Bool.false_eq_true, false_iff]
      rintro ⟨-, -, h20⟩
      omega
    · simp only [validateBarcode, if_neg h1, if_neg h2, Bool.and_eq_true,
        Bool.not_eq_true', List.all_eq_true]
      constructor
      · rintro ⟨-, hd⟩
        exact ⟨hd, by omega, by omega⟩
      · rintro ⟨hd, -, -⟩
        refine ⟨?_, hd⟩
        cases hd' : s.data with
        | nil =>
          rw [hlen, hd'] at h1
          simp at h1
        | cons c cs => simp [hd']

/-- C3: for every valid barcode the generated stats land in their configured
ranges — hp in [80, 120], attack in [30, 70], defense in [25, 65], speed in
[20, 60] — and `maxHp` equals `hp` (both are the same clamped expression). -/
theorem calculateStats_ranges (b : String) (h : validateBarcode b = true) :
    80 ≤ (calculateStats b).hp ∧ (calculateStats b).hp ≤ 120 ∧
    (calculateStats b).maxHp = (calculateStats b).hp ∧
    30 ≤ (calculateStats b).attack ∧ (calculateStats b).attack ≤ 70 ∧
    25 ≤ (calculateStats b).defense ∧ (calculateStats b).defense ≤ 65 ∧
    20 ≤ (calculateStats b).speed ∧ (calculateStats b).speed ≤ 60 := by
  simp only [calculateStats]
  exact ⟨le_clamp _ _ _ (by norm_num), clamp_le _ _ _, trivial,
    le_clamp _ _ _ (by norm_num), clamp_le _ _ _,
    le_clamp _ _ _ (by norm_num), clamp_le _ _ _,
    le_clamp _ _ _ (by norm_num), clamp_le _ _ _⟩

/-- Witness for C3 at the concrete barcode "12345678". -/
theorem calculateStats_ranges_witness :
    80 ≤ (calculateStats "12345678").hp ∧ (calculateStats "12345678").hp ≤ 120 ∧
    (calculateStats "12345678").maxHp = (calculateStats "12345678").hp ∧
    30 ≤ (calculateStats "12345678").attack ∧ (calculateStats "12345678").attack ≤ 70 ∧
    25 ≤ (calculateStats "12345678").defense ∧ (calculateStats "12345678").defense ≤ 65 ∧
    20 ≤ (calculateStats "12345678").speed ∧ (calculateStats "12345678").speed ≤ 60 :=
  calculateStats_ranges "12345678" (by decide)

unseal Rat.add Rat.mul Rat.inv Rat.sub in
/-- C2 counterexample: the source normalizes a non-positive initial state by
adding 2146483646 = m − 1, so the seed −2146483646 (whose JS remainder is
−2146483646) normalizes to 0, and the generator then returns
−1/2146483646 < 0 — outside the claimed `[0, 1)`. -/
theorem lcgValue_out_of_range_counterexample :
    lcgValue (-2147483646) 0 < 0 ∧ lcgValue (-2147483646) 0 = -1 / 2147483646 := by
  constructor
  · decide
  · decide

/-- C2 amended: for every integer seed whose JS remainder modulo 2147483647
is not −2146483646 (in particular every non-negative seed), the initial state
is normalized into `[1, 2146483646]`, every subsequent state
`current = (current * 16807) % 2147483647` stays in that interval, and every
returned value `(current − 1)/2146483646` lies in `[0, 1)`; the stream is a
pure function of the seed, so two generators with the same seed agree. -/
theorem lcg_stream_range (s : ℤ) (h : s.tmod 2147483647 ≠ -2147483646) :
    (1 ≤ lcgInit s ∧ lcgInit s ≤ 2147483646) ∧
    (∀ n, 1 ≤ lcgState s n ∧ lcgState s n ≤ 2147483646) ∧
    (∀ n, 0 ≤ lcgValue s n ∧ lcgValue s n < 1) := by
  refine ⟨lcgInit_bounds s h, lcgState_bounds s h, fun n => ?_⟩
  obtain ⟨h1, h2⟩ := lcgState_bounds s h (n + 1)
  unfold lcgValue lcgOut
  constructor
  · apply div_nonneg _ (by norm_num)
    have : (1 : ℚ) ≤ ((lcgState s (n + 1) : ℤ) : ℚ) := by exact_mod_cast h1
    linarith
  · rw [div_lt_one (by norm_num)]
    have : ((lcgState s (n + 1) : ℤ) : ℚ) ≤ 2147483646 := by exact_mod_cast h2
    linarith

/-- Witness for C2's amended theorem at seed 42. -/
theorem lcg_stream_range_witness :
    0 ≤ lcgValue 42 0 ∧ lcgValue 42 0 < 1 :=
  (lcg_stream_range 42 (by decide)).2.2 0

/-- C1: `generateCreature` is deterministic in the barcode — whenever two
calls (with arbitrary generated ids, and regardless of any other generation
calls in between: each generation function builds its own seeded generator
from the barcode-derived seed, so the embedding is a pure function of the
barcode) both produce a creature, the two creatures have identical stats and
identical names. -/
theorem generateCreature_deterministic (b id1 id2 : String) (c1 c2 : Creature)
    (h1 : generateCreature id1 b = some c1) (h2 : generateCreature id2 b = some c2) :
    c1.stats = c2.stats ∧ c1.name = c2.name := by
  have inv : ∀ ident c, generateCreature ident b = some c →
      c.stats = calculateStats b ∧ c.name = generateCreatureName b := by
    intro ident c h
    unfold generateCreature at h
    split at h
    · exact absurd h (by simp)
    · dsimp only at h
      split at h
      · exact absurd h (by simp)
      · cases h
        exact ⟨rfl, rfl⟩
  obtain ⟨hs1, hn1⟩ := inv id1 c1 h1
  obtain ⟨hs2, hn2⟩ := inv id2 c2 h2
  rw [hs1, hs2, hn1, hn2]
  exact ⟨rfl, rfl⟩

unseal Rat.add Rat.mul Rat.inv Rat.sub in
/-- Witness for C1: two generations from barcode "12345678" with different
ids both succeed, and the theorem yields equal stats and names. -/
theorem generateCreature_deterministic_witness :
    ∃ c1 c2 : Creature, generateCreature "id-a" "12345678" = some c1 ∧
      generateCreature "id-b" "12345678" = some c2 ∧
      c1.stats = c2.stats ∧ c1.name = c2.name := by
  refine ⟨(generateCreature "id-a" "12345678").get (by decide),
          (generateCreature "id-b" "12345678").get (by decide),
          (Option.some_get _).symm, (Option.some_get _).symm, ?_⟩
  exact generateCreature_deterministic "12345678" "id-a" "id-b" _ _
    (Option.some_get _).symm (Option.some_get _).symm

unseal Rat.add Rat.mul Rat.inv Rat.sub in
/-- C9 counterexample: a structurally valid collection creature whose stored
experience (150) already reaches its threshold (100) — the validator does
not relate the two fields — gains a level from `awardExperience` with
amount 0, because the level-up loop only looks at the accumulated
experience. -/
theorem awardExperience_zero_counterexample :
    isValidCreature staleCreature = true ∧ staleCreature.level = 1 ∧
    ((awardExperience staleCreature 0).map fun r => r.1.level) = some 2 := by
  refine ⟨by decide, by decide, by decide⟩

/-- C9 amended: awarding 0 experience is a complete no-op (level, stats,
experience, threshold all unchanged) for every creature whose experience is
still below its `experienceToNext` threshold — the invariant the leveling
loop maintains for every creature the system itself produces. -/
theorem awardExperience_zero_noop (c : Creature)
    (h : c.experience < c.experienceToNext) :
    awardExperience c 0 = some (c, 0) := by
  unfold awardExperience
  rw [if_neg (by norm_num)]
  simp only [add_zero]
  show some (checkLevelUp c) = some (c, 0)
  rw [checkLevelUp_stop c h]

unseal Rat.add Rat.mul Rat.inv Rat.sub in
/-- Witness for C9's amended theorem on a consistent creature. -/
theorem awardExperience_zero_noop_witness :
    awardExperience freshCreature 0 = some (freshCreature, 0) :=
  awardExperience_zero_noop freshCreature (by decide)

unseal Rat.add Rat.mul Rat.inv Rat.sub in
/-- C6 counterexample: one `awardExperience` call with a large grant applies
exactly 51 level-ups, not 50 — the `levelsGained > 50` safety check is
evaluated after the increment, so it only breaks the loop after the 51st
level-up. -/
theorem levelUp_cap_counterexample :
    ((awardExperience freshCreature 1000000000000).map Prod.snd).getD 0 = 51 := by
  decide

/-- C6 amended: a single `awardExperience` call applies at most 51 level-ups
(the loop breaks once `levelsGained` exceeds 50, i.e. after the 51st
level-up), and hitting the cap is silently bounded: for every non-negative
grant the call still returns a success result, never an error. -/
theorem awardExperience_cap (c : Creature) (amount : ℤ) (h : 0 ≤ amount) :
    ∃ r, awardExperience c amount = some r ∧ r.2 ≤ 51 := by
  unfold awardExperience
  rw [if_neg (by omega)]
  exact ⟨_, rfl, checkLevelUpGo_le 51 _ 0 (by norm_num)⟩

/-- Witness for C6's amended theorem. -/
theorem awardExperience_cap_witness :
    ∃ r, awardExperience freshCreature 500 = some r ∧ r.2 ≤ 51 :=
  awardExperience_cap freshCreature 500 (by norm_num)

/-- C5: for a creature with consistent leveling fields
(`experienceToNext = ⌊100 · 1.5^(level−1)⌋`), non-negative experience below
the threshold, awarding an amount at least the threshold strictly increases
the level; the experience decreases by exactly the sum of the consumed
thresholds (`expConsumed`, the sum of `calculateExperienceToNext` over the
levels passed); the threshold stays consistent; and the stats are recomputed
level by level, each step re-deriving the stats for the new level and
preserving the hp-to-maxHp share, floored, with a minimum of 1 HP
(`statsAfterLevelUps` iterating `levelUpStatsStep`). -/
theorem awardExperience_level_up (c : Creature) (amount : ℤ)
    (hcons : c.experienceToNext = calculateExperienceToNext c.level)
    (hexp : 0 ≤ c.experience)
    (hlt : c.experience < c.experienceToNext)
    (hamt : c.experienceToNext ≤ amount) :
    ∃ c' g, awardExperience c amount = some (c', g) ∧
      0 < g ∧
      c.level < c'.level ∧
      c'.level = c.level + (g : ℤ) ∧
      c'.experience + expConsumed c.level g = c.experience + amount ∧
      c'.experienceToNext = calculateExperienceToNext c'.level ∧
      c'.stats = statsAfterLevelUps (calculateStats c.barcode) c.level c.stats g := by
  have h0 : ¬amount < 0 := by omega
  unfold awardExperience
  rw [if_neg h0]
  set c0 : Creature := { c with experience := c.experience + amount } with hc0
  have hcons0 : c0.experienceToNext = calculateExperienceToNext c0.level := hcons
  obtain ⟨m1, m2, m3, m4, m5, m6, m7⟩ := checkLevelUpGo_spec 51 c0 0 hcons0
  have hgpos : 0 < (checkLevelUpGo 51 c0 0).2 := by
    apply m7 (by norm_num)
    show c.experienceToNext ≤ c.experience + amount
    omega
  simp only [Nat.sub_zero] at m3 m4 m6
  refine ⟨(checkLevelUpGo 51 c0 0).1, (checkLevelUpGo 51 c0 0).2, rfl, hgpos, ?_, ?_, ?_, m5, ?_⟩
  · show c.level < (checkLevelUpGo 51 c0 0).1.level
    rw [m3]
    show c.level < c.level + _
    omega
  · exact m3
  · rw [m4]
  · exact m6

/-- C8: after any sequence of recorded battle results, easy is always
unlocked; medium is unlocked exactly when cumulative wins across all
difficulties reach 5; and hard is unlocked exactly when cumulative wins
reach 15 AND medium-specific wins reach 8 — in particular hard stays locked
while total wins ≥ 15 but medium wins < 8. -/
theorem difficultyUnlocks_characterization (results : List (Bool × Option Difficulty)) :
    isDifficultyUnlocked (runBattleResults results) .easy = true ∧
    (isDifficultyUnlocked (runBattleResults results) .medium = true ↔
      5 ≤ getTotalWins (runBattleResults results)) ∧
    (isDifficultyUnlocked (runBattleResults results) .hard = true ↔
      (15 ≤ getTotalWins (runBattleResults results) ∧
       8 ≤ (runBattleResults results).statsMedium.wins)) := by
  have main : ∀ (l : List (Bool × Option Difficulty)) (s : DifficultyProgress),
      (Difficulty.easy ∈ s.unlockedDifficulties ∧
       (Difficulty.medium ∈ s.unlockedDifficulties ↔ 5 ≤ getTotalWins s) ∧
       (Difficulty.hard ∈ s.unlockedDifficulties ↔
         (15 ≤ getTotalWins s ∧ 8 ≤ s.statsMedium.wins))) →
      (Difficulty.easy ∈
        (l.foldl (fun st r => recordBattleResult st r.1 r.2) s).unlockedDifficulties ∧
       (Difficulty.medium ∈
          (l.foldl (fun st r => recordBattleResult st r.1 r.2) s).unlockedDifficulties ↔
        5 ≤ getTotalWins (l.foldl (fun st r => recordBattleResult st r.1 r.2) s)) ∧
       (Difficulty.hard ∈
          (l.foldl (fun st r => recordBattleResult st r.1 r.2) s).unlockedDifficulties ↔
        (15 ≤ getTotalWins (l.foldl (fun st r => recordBattleResult st r.1 r.2) s) ∧
         8 ≤ (l.foldl (fun st r => recordBattleResult st r.1 r.2) s).statsMedium.wins))) := by
    intro l
    induction l with
    | nil => exact fun s h => h
    | cons r rest ih =>
      intro s h
      exact ih _ (recordBattleResult_inv s r.1 r.2 h.1 h.2.1 h.2.2)
  obtain ⟨a, b, c⟩ := main results initialProgress (by decide)
  refine ⟨(isUnlocked_iff_mem _ _).mpr a, ?_, ?_⟩
  · rw [isUnlocked_iff_mem]
    exact b
  · rw [isUnlocked_iff_mem]
    exact c

unseal Rat.add Rat.mul Rat.inv Rat.sub in
/-- Witness for C5 on a consistent level-1 creature awarded exactly its
threshold. -/
theorem awardExperience_level_up_witness :
    ∃ c' g, awardExperience freshCreature 100 = some (c', g) ∧
      0 < g ∧
      freshCreature.level < c'.level ∧
      c'.level = freshCreature.level + (g : ℤ) ∧
      c'.experience + expConsumed freshCreature.level g =
        freshCreature.experience + 100 ∧
      c'.experienceToNext = calculateExperienceToNext c'.level ∧
      c'.stats = statsAfterLevelUps (calculateStats freshCreature.barcode)
        freshCreature.level freshCreature.stats g :=
  awardExperience_level_up freshCreature 100 (by decide) (by decide) (by decide)
    (by decide)

unseal Rat.add Rat.mul Rat.inv Rat.sub in
/-- C7: the AI CAN select `special` past the 3-special cap.  In
`cappedBattleView` the AI side's `specialAttacksUsed` is 3, so the analyzed
situation has `canUseSpecial = false`; yet with the Defensive personality on
medium difficulty the decision pipeline picks the defensive strategy, whose
avoid-consecutive-defends branch returns `special` on a draw of 0.9 without
consulting `canUseSpecial` — contradicting the documented hard constraint
(the aggressive strategy and the hard-difficulty optimal action do check it,
but the defensive branches, the tactical pattern counter and the
easy-difficulty mistake replacement do not). -/
theorem makeDecision_special_past_cap :
    cappedBattleView.opponentActions.specialAttacksUsed = 3 ∧
    (analyzeBattleSituation (updateMemory initialAIMemory cappedBattleView)
        cappedBattleView).canUseSpecial = false ∧
    (makeDecision ⟨.medium, defensivePersonality, initialAIMemory⟩
        cappedBattleView [9/10]).1 = .special := by
  refine ⟨rfl, by decide, by decide⟩

/-- C10: `executePlayerAction` and `executeAIAction` raise a hard failure
exactly when there is no current battle, the battle's status is not `active`
(terminal battles reject further actions), or `currentTurn` does not match
the acting side; under the complementary precondition they return a success
result.  The throws happen before any mutation, so the embedding returns no
state on error and the caller's state is unchanged. -/
theorem executeAction_guards (s : EngineState) (a : Action) (rng : List ℚ) :
    ((executePlayerAction s a rng).isOk = true ↔
      (∃ b, s.currentBattle = some b ∧ b.status = .active ∧ b.currentTurn = .player)) ∧
    ((executeAIAction s rng).isOk = true ↔
      (∃ b, s.currentBattle = some b ∧ b.status = .active ∧ b.currentTurn = .opponent)) := by
  constructor
  · cases hb : s.currentBattle with
    | none =>
      simp only [executePlayerAction, hb]
      constructor
      · intro h
        exact absurd h (by simp [Except.isOk, Except.toBool])
      · rintro ⟨b', hb', -⟩
        cases hb'
    | some b =>
      simp only [executePlayerAction, hb]
      by_cases h1 : b.status = BattleStatus.active
      · rw [if_neg (not_not_intro h1)]
        by_cases h2 : b.currentTurn = Side.player
        · rw [if_neg (not_not_intro h2)]
          constructor
          · intro _
            exact ⟨b, rfl, h1, h2⟩
          · intro _
            dsimp only
            split <;> rfl
        · rw [if_pos h2]
          constructor
          · intro h
            exact absurd h (by simp [Except.isOk, Except.toBool])
          · rintro ⟨b', hb', -, ht⟩
            cases hb'
            exact absurd ht h2
      · rw [if_pos h1]
        constructor
        · intro h
          exact absurd h (by simp [Except.isOk, Except.toBool])
        · rintro ⟨b', hb', hst, -⟩
          cases hb'
          exact absurd hst h1
  · cases hb : s.currentBattle with
    | none =>
      simp only [executeAIAction, hb]
      constructor
      · intro h
        exact absurd h (by simp [Except.isOk, Except.toBool])
      · rintro ⟨b', hb', -⟩
        cases hb'
    | some b =>
      simp only [executeAIAction, hb]
      by_cases h1 : b.status = BattleStatus.active
      · rw [if_neg (not_not_intro h1)]
        by_cases h2 : b.currentTurn = Side.opponent
        · rw [if_neg (not_not_intro h2)]
          constructor
          · intro _
            exact ⟨b, rfl, h1, h2⟩
          · intro _
            dsimp only
            split <;> rfl
        · rw [if_pos h2]
          constructor
          · intro h
            exact absurd h (by simp [Except.isOk, Except.toBool])
          · rintro ⟨b', hb', -, ht⟩
            cases hb'
            exact absurd ht h2
      · rw [if_pos h1]
        constructor
        · intro h
          exact absurd h (by simp [Except.isOk, Except.toBool])
        · rintro ⟨b', hb', hst, -⟩
          cases hb'
          exact absurd hst h1

end BarcodeBattler
